import Mathlib

/-!
Shallow embedding of the RNK Cyphur message-relay core
(src/src/DataManager.js, src/src/Constants.js and the SocketHandler in
src/unnamed/part_002) together with proofs about the claims C1 to C10.

Modelling conventions:
* JavaScript objects with optional keys become structures whose fields are
  Option types; a missing key is none.  JS truthiness tests on strings,
  numbers and booleans are made explicit (jsTruthyS, jsTruthyN, jsTruthyB).
* JS Map objects become association lists (first occurrence wins, set
  updates in place, insertion order preserved), JS Set objects become
  lists without duplicates.
* The DEFAULTS constant object of Constants.js is modelled as a partial
  string-keyed map, because DataManager.js reads the keys
  MAX_MESSAGE_HISTORY, TYPING_TIMEOUT and MAX_INTERCEPTED which are NOT
  defined there (Constants.js defines maxMessageHistory, typingTimeout,
  maxIntercepted); such a read yields undefined, and a JS comparison
  x > undefined is false.  jsGt encodes exactly this.
* Effects that are out of scope for the claims (persistence writes,
  UI refresh, sounds, desktop notifications) are omitted: they never touch
  the data stores modelled here.
* Utils.parseRichContent is a presentational string transformation
  (HTML escaping plus link markup); no claim depends on its output, so it
  is abstracted as an arbitrary function carried in the context Ctx,
  as are the foundry.utils.randomID supply and Date.now.
* Messages are passed by value: appending the same message twice models
  two deliveries of equal payloads, which is the duplicate-delivery case
  the dedup logic exists for.
-/

namespace Cyphur

-- ═══════════════ JS semantics helpers ═══════════════

/-- Truthiness of an optional JS string: undefined and the empty string are falsy. -/
def jsTruthyS : Option String → Bool
  | some s => s ≠ ""
  | none => false

/-- Truthiness of an optional JS number: undefined and 0 are falsy. -/
def jsTruthyN : Option Nat → Bool
  | some n => n ≠ 0
  | none => false

/-- Truthiness of an optional JS boolean: undefined is falsy. -/
def jsTruthyB : Option Bool → Bool
  | some b => b
  | none => false

/-- String coercion of a possibly-undefined JS string value. -/
def jsStr (o : Option String) : String := o.getD "undefined"

/-- JS comparison x > y where y may be undefined: any comparison against
undefined is NaN-tainted and yields false. -/
def jsGt (x : Nat) : Option Nat → Bool
  | some y => x > y
  | none => false

/-- Array.prototype.slice with a negative argument, slice(-n): the last n
elements.  slice(-undefined) is slice(NaN) which is slice(0), the whole
array; likewise slice(-0) is the whole array. -/
def jsSliceNeg (h : List α) : Option Nat → List α
  | some n => if n = 0 then h else h.drop (h.length - n)
  | none => h

/-- Lookup in a JS Map modelled as an association list. -/
def mget : List (String × α) → String → Option α
  | [], _ => none
  | (k', v) :: rest, k => if k' = k then some v else mget rest k

/-- JS Map.set: replace the entry in place if present, append otherwise. -/
def mset : List (String × α) → String → α → List (String × α)
  | [], k, v => [(k, v)]
  | (k', v') :: rest, k, v =>
    if k' = k then (k, v) :: rest else (k', v') :: mset rest k v

/-- Replace the first element satisfying p (JS find followed by in-place
mutation of the found object). -/
def updateFirst (p : α → Bool) (f : α → α) : List α → List α
  | [] => []
  | x :: xs => if p x then f x :: xs else x :: updateFirst p f xs

/-- Remove the first element satisfying p (JS findIndex followed by splice). -/
def eraseFirstP (p : α → Bool) : List α → List α
  | [] => []
  | x :: xs => if p x then xs else x :: eraseFirstP p xs

-- ═══════════════ Data model ═══════════════

/-- A message payload object.  Fields the claims never touch (reactions)
are omitted; every field is optional because the JS object may lack the key. -/
structure Message where
  id : Option String := none
  senderId : Option String := none
  senderName : Option String := none
  senderImg : Option String := none
  messageContent : Option String := none
  timestamp : Option Nat := none
  imageUrl : Option String := none
  replyToId : Option String := none
  edited : Option Bool := none
  editedAt : Option Nat := none
deriving DecidableEq

/-- Object.keys(messageData).length > 0 for the modelled fields. -/
def Message.hasKeys (m : Message) : Bool :=
  m.id.isSome || m.senderId.isSome || m.senderName.isSome || m.senderImg.isSome ||
  m.messageContent.isSome || m.timestamp.isSome || m.imageUrl.isSome ||
  m.replyToId.isSome || m.edited.isSome || m.editedAt.isSome

/-- A private conversation: the two participant ids and the message list. -/
structure Chat where
  users : List String
  history : List Message
deriving DecidableEq

/-- A group conversation (fields not exercised by the claims keep defaults). -/
structure Group where
  id : String := ""
  name : String := ""
  members : List String := []
  history : List Message := []
deriving DecidableEq

/-- An entry of DataManager.interceptedMessages (the GM monitor payload). -/
structure IRec where
  senderId : Option String := none
  recipientId : Option String := none
  groupId : Option String := none
  groupName : Option String := none
  messageData : Message
  id : Option String := none
  interceptedAt : Option Nat := none
deriving DecidableEq

/-- One entry of the game.users roster. -/
structure User where
  id : String
  name : String := ""
  isGM : Bool := false
  active : Bool := false
deriving DecidableEq

/-- The DataManager static stores touched by the claims. -/
structure DM where
  privateChats : List (String × Chat) := []
  groupChats : List (String × Group) := []
  interceptedMessages : List IRec := []
  unreadCounts : List (String × Nat) := []
  lastRead : List (String × Nat) := []
  typingUsers : List (String × List (String × Nat)) := []
  mutedConversations : List String := []
  lastActivity : List (String × Nat) := []
deriving DecidableEq

/-- Ambient context for one operation: the rich-content transformation,
the randomID supply used by sanitization, the fresh ids drawn for a message
and for an interception record, and the current clock value. -/
structure Ctx where
  parseRich : String → String
  gen : Nat → String
  freshMsgId : String
  freshLogId : String
  now : Nat

-- ═══════════════ Constants.js ═══════════════

/-- The numeric part of the DEFAULTS object of Constants.js.  Keys are
exactly the ones the source defines; any other key reads as undefined
(none).  String-valued keys (theme, notificationSound) are irrelevant to
the claims and omitted. -/
def DEFAULTS : String → Option Nat := fun k =>
  if k = "soundVolume" then some 50
  else if k = "maxMessageHistory" then some 500
  else if k = "typingTimeout" then some 5000
  else if k = "maxIntercepted" then some 1000
  else none

-- ═══════════════ DataManager._sanitizeHistory ═══════════════

/-- The dedup signature of a message: sender, timestamp and content joined
with pipes, computed only when senderId and timestamp are truthy and the
content is a string (Boolean(msg.senderId && msg.timestamp &&
typeof msg.messageContent === string)). -/
def msgSig (m : Message) : Option String :=
  if jsTruthyS m.senderId && jsTruthyN m.timestamp && m.messageContent.isSome then
    some (m.senderId.getD "" ++ "|" ++ Nat.repr (m.timestamp.getD 0) ++ "|" ++
      m.messageContent.getD "")
  else none

/-- The loop of DataManager._sanitizeHistory: walk the history keeping the
seen-id and seen-signature sets and the randomID call counter; a message
with a falsy id gets a fresh id; duplicates by id or by signature are
skipped.  Returns the kept messages together with the final accumulators. -/
def sanRun (gen : Nat → String) :
    List Message → Nat → List String → List String →
    List Message × Nat × List String × List String
  | [], ctr, ids, sigs => ([], ctr, ids, sigs)
  | msg :: rest, ctr, ids, sigs =>
    let m := if jsTruthyS msg.id then msg else { msg with id := some (gen ctr) }
    let ctr' := if jsTruthyS msg.id then ctr else ctr + 1
    let i := m.id.getD ""
    if i ∈ ids then sanRun gen rest ctr' ids sigs
    else
      match msgSig m with
      | some s =>
        if s ∈ sigs then sanRun gen rest ctr' ids sigs
        else
          let r := sanRun gen rest ctr' (i :: ids) (s :: sigs)
          (m :: r.1, r.2)
      | none =>
        let r := sanRun gen rest ctr' (i :: ids) sigs
        (m :: r.1, r.2)

/-- DataManager._sanitizeHistory. -/
def sanitizeHistory (gen : Nat → String) (history : List Message) : List Message :=
  (sanRun gen history 0 [] []).1

/-- Well-formedness of a history relative to already-seen ids and
signatures: every message has a truthy id, ids and signatures are fresh
and pairwise distinct.  This is exactly the shape of a _sanitizeHistory
output, and every stored history has this shape because both append
methods sanitize before committing. -/
def okChainB (ids sigs : List String) : List Message → Bool
  | [] => true
  | m :: t =>
    jsTruthyS m.id && !(decide (m.id.getD "" ∈ ids)) &&
    (match msgSig m with
     | some s => !(decide (s ∈ sigs)) && okChainB ((m.id.getD "") :: ids) (s :: sigs) t
     | none => okChainB ((m.id.getD "") :: ids) sigs t)

/-- No message of the history carries the dedup signature of m. -/
def sigFreeB (m : Message) (h : List Message) : Bool :=
  match msgSig m with
  | some s => h.all (fun x => !(msgSig x == some s))
  | none => true

-- ═══════════════ DataManager operations ═══════════════

/-- The default JS string comparison used by Array.prototype.sort:
lexicographic over the code units.  Modelled over the Lean character list
by code point, which coincides with the UTF-16 code-unit order on the
basic multilingual plane (Foundry user ids are alphanumeric ASCII). -/
def charUnitsLe : List Char → List Char → Bool
  | [], _ => true
  | _ :: _, [] => false
  | x :: xs, y :: ys =>
    if x.toNat < y.toNat then true
    else if y.toNat < x.toNat then false
    else charUnitsLe xs ys

/-- DataManager.getPrivateChatKey: the two ids sorted and joined with a dash. -/
def getPrivateChatKey (userId1 userId2 : String) : String :=
  if charUnitsLe userId1.data userId2.data then userId1 ++ "-" ++ userId2
  else userId2 ++ "-" ++ userId1

/-- The shell-creation step of DataManager.addPrivateMessage: if the chat
key is absent, install an empty conversation holding the two user ids. -/
def ensureShell (userId1 userId2 : String) (pcs : List (String × Chat)) :
    List (String × Chat) :=
  if (mget pcs (getPrivateChatKey userId1 userId2)).isSome then pcs
  else mset pcs (getPrivateChatKey userId1 userId2) { users := [userId1, userId2], history := [] }

/-- DataManager.addPrivateMessage.  The conversation shell is created before
the message guard; a message with at least one key is given an id if its id
is falsy, its content is passed through parseRichContent, it is appended
unless a message with the same id already exists, the history is trimmed
when longer than DEFAULTS.MAX_MESSAGE_HISTORY (a key that does not exist,
so the guard is never taken), then sanitized, and last activity is stamped.
Here first the preprocessing both append methods apply to an incoming
message object: ensure-id plus parseRichContent. -/
def prepMsg (c : Ctx) (msg : Message) : Message :=
  let m := if jsTruthyS msg.id then msg else { msg with id := some c.freshMsgId }
  { m with messageContent := m.messageContent.map c.parseRich }

/-- The shared history-append logic of addPrivateMessage and
addGroupMessage (the two methods contain the same statements): skip when a
message with the same id exists, otherwise push and trim past
DEFAULTS.MAX_MESSAGE_HISTORY (an undefined key, so the trim guard is never
taken), then sanitize the whole history. -/
def appendCore (c : Ctx) (hist0 : List Message) (m : Message) : List Message :=
  let hist :=
    if hist0.any (fun x => x.id == m.id) then hist0
    else
      let h := hist0 ++ [m]
      if jsGt h.length (DEFAULTS "MAX_MESSAGE_HISTORY") then
        jsSliceNeg h (DEFAULTS "MAX_MESSAGE_HISTORY")
      else h
  sanitizeHistory c.gen hist

def addPrivateMessage (c : Ctx) (userId1 userId2 : String) (msg : Message) (s : DM) : DM :=
  let chatKey := getPrivateChatKey userId1 userId2
  let pcs := ensureShell userId1 userId2 s.privateChats
  if msg.hasKeys then
    let m := prepMsg c msg
    let chat := (mget pcs chatKey).getD { users := [userId1, userId2], history := [] }
    let hist := appendCore c chat.history m
    { s with
      privateChats := mset pcs chatKey { chat with history := hist },
      lastActivity := mset s.lastActivity chatKey c.now }
  else
    { s with privateChats := pcs }

/-- DataManager.addGroupMessage: same append logic against an existing
group; a missing group is a logged no-op. -/
def addGroupMessage (c : Ctx) (groupId : String) (msg : Message) (s : DM) : DM :=
  match mget s.groupChats groupId with
  | none => s
  | some g =>
    if msg.hasKeys then
      let hist := appendCore c g.history (prepMsg c msg)
      { s with
        groupChats := mset s.groupChats groupId { g with history := hist },
        lastActivity := mset s.lastActivity groupId c.now }
    else s

/-- DataManager.editMessage: false when the conversation or the message id
is absent, otherwise overwrite content, set the edited flag and timestamp. -/
def editMessage (c : Ctx) (conversationId messageId newContent : String)
    (isGroup : Bool) (s : DM) : DM × Bool :=
  let touch (m : Message) : Message :=
    { m with messageContent := some (c.parseRich newContent),
             edited := some true, editedAt := some c.now }
  if isGroup then
    match mget s.groupChats conversationId with
    | none => (s, false)
    | some g =>
      if g.history.any (fun x => x.id == some messageId) then
        let hist := updateFirst (fun x => x.id == some messageId) touch g.history
        ({ s with groupChats := mset s.groupChats conversationId { g with history := hist } }, true)
      else (s, false)
  else
    match mget s.privateChats conversationId with
    | none => (s, false)
    | some ch =>
      if ch.history.any (fun x => x.id == some messageId) then
        let hist := updateFirst (fun x => x.id == some messageId) touch ch.history
        ({ s with privateChats := mset s.privateChats conversationId { ch with history := hist } }, true)
      else (s, false)

/-- DataManager.deleteMessage: false when the conversation or the message id
is absent, otherwise splice the message out. -/
def deleteMessage (conversationId messageId : String) (isGroup : Bool) (s : DM) : DM × Bool :=
  if isGroup then
    match mget s.groupChats conversationId with
    | none => (s, false)
    | some g =>
      if g.history.any (fun x => x.id == some messageId) then
        let hist := eraseFirstP (fun x => x.id == some messageId) g.history
        ({ s with groupChats := mset s.groupChats conversationId { g with history := hist } }, true)
      else (s, false)
  else
    match mget s.privateChats conversationId with
    | none => (s, false)
    | some ch =>
      if ch.history.any (fun x => x.id == some messageId) then
        let hist := eraseFirstP (fun x => x.id == some messageId) ch.history
        ({ s with privateChats := mset s.privateChats conversationId { ch with history := hist } }, true)
      else (s, false)

/-- DataManager.addInterceptedMessage: stamp a fresh id and interception
time, push, and drop the oldest entry while longer than
DEFAULTS.MAX_INTERCEPTED (again an undefined key, so never dropped). -/
def addInterceptedMessage (c : Ctx) (p : IRec) (s : DM) : DM :=
  let p := { p with id := some c.freshLogId, interceptedAt := some c.now }
  let log := s.interceptedMessages ++ [p]
  let log := if jsGt log.length (DEFAULTS "MAX_INTERCEPTED") then log.drop 1 else log
  { s with interceptedMessages := log }

/-- DataManager.incrementUnread: no-op for muted conversations. -/
def incrementUnread (conversationId : String) (s : DM) : DM :=
  if conversationId ∈ s.mutedConversations then s
  else
    let current := (mget s.unreadCounts conversationId).getD 0
    { s with unreadCounts := mset s.unreadCounts conversationId (current + 1) }

/-- DataManager.getUnreadCount. -/
def getUnreadCount (conversationId : String) (s : DM) : Nat :=
  (mget s.unreadCounts conversationId).getD 0

/-- DataManager.toggleMuted. -/
def toggleMuted (conversationId : String) (s : DM) : DM :=
  if conversationId ∈ s.mutedConversations then
    { s with mutedConversations := s.mutedConversations.filter (fun x => x ≠ conversationId) }
  else
    { s with mutedConversations := s.mutedConversations ++ [conversationId] }

/-- DataManager.isMuted. -/
def isMuted (conversationId : String) (s : DM) : Bool :=
  s.mutedConversations.contains conversationId

/-- The loop of DataManager.getTypingUsers over the per-conversation typing
map: entries older than DEFAULTS.TYPING_TIMEOUT (an undefined key, so the
staleness test is always false) are deleted, the remaining users that exist
in the roster and are not the reading user contribute their names. -/
def typingScan (roster : List User) (myId : String) (now : Nat) :
    List (String × Nat) → List (String × Nat) × List String
  | [] => ([], [])
  | (uid, ts) :: rest =>
    if jsGt (now - ts) (DEFAULTS "TYPING_TIMEOUT") then typingScan roster myId now rest
    else
      let r := typingScan roster myId now rest
      match roster.find? (fun u => u.id == uid) with
      | some u =>
        if u.id ≠ myId then ((uid, ts) :: r.1, u.name :: r.2)
        else ((uid, ts) :: r.1, r.2)
      | none => ((uid, ts) :: r.1, r.2)

/-- DataManager.getTypingUsers: returns the possibly-pruned state together
with the listed user names; an absent conversation reads as an empty list
without touching state. -/
def getTypingUsers (roster : List User) (myId : String) (now : Nat)
    (conversationId : String) (s : DM) : DM × List String :=
  match mget s.typingUsers conversationId with
  | none => (s, [])
  | some entries =>
    let r := typingScan roster myId now entries
    ({ s with typingUsers := mset s.typingUsers conversationId r.1 }, r.2)

-- ═══════════════ SocketHandler ═══════════════

/-- The payload of a privateMessage socket event. -/
structure PMPayload where
  recipientId : String
  message : Message
  isRelay : Option Bool := none
  originalSenderId : Option String := none
  originalRecipientId : Option String := none
deriving DecidableEq

/-- One game.socket.emit call: event type, payload and the recipient list. -/
structure Emission where
  eventType : String
  payload : PMPayload
  recipients : List String
deriving DecidableEq

/-- SocketHandler.sendPrivateMessage: always emit the direct copy to the
recipient; when the sender is not a GM and the recipient exists in the
roster and is not a GM, additionally emit a relay copy to the first active
GM of the roster, if any. -/
def sendPrivateMessage (roster : List User) (senderId : String) (senderIsGM : Bool)
    (recipientId : String) (messageData : Message) : List Emission :=
  let direct : Emission :=
    { eventType := "privateMessage",
      payload := { recipientId := recipientId, message := messageData },
      recipients := [recipientId] }
  let recipientUser := roster.find? (fun u => u.id == recipientId)
  if !senderIsGM && (match recipientUser with | some u => !u.isGM | none => false) then
    match roster.find? (fun u => u.isGM && u.active) with
    | some gm =>
      [direct,
       { eventType := "privateMessage",
         payload := { recipientId := gm.id, message := messageData, isRelay := some true,
                      originalSenderId := some senderId,
                      originalRecipientId := some recipientId },
         recipients := [gm.id] }]
    | none => [direct]
  else [direct]

/-- SocketHandler._handlePrivateMessage, restricted to its effect on the
data stores (sounds, notifications and window refreshes are presentation). -/
def handlePrivateMessage (c : Ctx) (p : PMPayload) (myId : String) (myIsGM : Bool)
    (s : DM) : DM :=
  if p.recipientId ≠ myId then s
  else if p.message.senderId == some myId then s
  else if jsTruthyB p.isRelay && myIsGM then
    let s := addInterceptedMessage c
      { senderId := p.originalSenderId, recipientId := p.originalRecipientId,
        messageData := p.message } s
    addPrivateMessage c (jsStr p.originalSenderId) (jsStr p.originalRecipientId) p.message s
  else if !(jsTruthyB p.isRelay) then
    let s := addPrivateMessage c (jsStr p.message.senderId) p.recipientId p.message s
    let s :=
      if myIsGM then
        addInterceptedMessage c
          { senderId := p.message.senderId, recipientId := some p.recipientId,
            messageData := p.message } s
      else s
    incrementUnread (getPrivateChatKey (jsStr p.message.senderId) p.recipientId) s
  else s

/-- SocketHandler._onSocketMessage, restricted to privateMessage events. -/
def onSocketMessage (c : Ctx) (e : Emission) (myId : String) (myIsGM : Bool) (s : DM) : DM :=
  if e.eventType == "privateMessage" then handlePrivateMessage c e.payload myId myIsGM s
  else s

/-- Deliver a sequence of emissions to one client: the transport hands a
client exactly the events whose recipient list contains it, in order. -/
def deliverTo (c : Ctx) (myId : String) (myIsGM : Bool) (es : List Emission) (s : DM) : DM :=
  es.foldl (fun st e => if myId ∈ e.recipients then onSocketMessage c e myId myIsGM st else st) s

-- ═══════════════ Basic lemmas: maps, constants, projections ═══════════════

theorem mget_mset_self (l : List (String × α)) (k : String) (v : α) :
    mget (mset l k v) k = some v := by
  induction l with
  | nil => simp [mget, mset]
  | cons p rest ih =>
    obtain ⟨k', v'⟩ := p
    by_cases h : k' = k <;> simp [mget, mset, h, ih]

theorem mget_mset_ne (l : List (String × α)) (k k' : String) (v : α) (h : k ≠ k') :
    mget (mset l k' v) k = mget l k := by
  have h' : k' ≠ k := fun hh => h hh.symm
  induction l with
  | nil => simp [mget, mset, h']
  | cons p rest ih =>
    obtain ⟨k0, v0⟩ := p
    by_cases h0 : k0 = k' <;> by_cases h1 : k0 = k <;> simp_all [mget, mset]

theorem mset_mset (l : List (String × α)) (k : String) (v w : α) :
    mset (mset l k v) k w = mset l k w := by
  induction l with
  | nil => simp [mset]
  | cons p rest ih =>
    obtain ⟨k', v'⟩ := p
    by_cases h : k' = k <;> simp [mset, h, ih]

theorem DEFAULTS_cap : DEFAULTS "MAX_MESSAGE_HISTORY" = none := by decide

theorem DEFAULTS_typing : DEFAULTS "TYPING_TIMEOUT" = none := by decide

theorem DEFAULTS_intercepted : DEFAULTS "MAX_INTERCEPTED" = none := by decide

theorem jsGt_none (x : Nat) : jsGt x none = false := rfl

/-- addInterceptedMessage only appends: the MAX_INTERCEPTED key does not
exist, so the ring-buffer drop never fires. -/
theorem addInterceptedMessage_eq (c : Ctx) (p : IRec) (s : DM) :
    addInterceptedMessage c p s =
      { s with interceptedMessages :=
          s.interceptedMessages ++ [{ p with id := some c.freshLogId, interceptedAt := some c.now }] } := by
  simp [addInterceptedMessage, DEFAULTS_intercepted, jsGt_none]

theorem addPrivateMessage_interceptedMessages (c : Ctx) (u1 u2 : String) (m : Message) (s : DM) :
    (addPrivateMessage c u1 u2 m s).interceptedMessages = s.interceptedMessages := by
  unfold addPrivateMessage
  split <;> rfl

theorem addPrivateMessage_unreadCounts (c : Ctx) (u1 u2 : String) (m : Message) (s : DM) :
    (addPrivateMessage c u1 u2 m s).unreadCounts = s.unreadCounts := by
  unfold addPrivateMessage
  split <;> rfl

-- ═══════════════ Sanitize-history lemmas ═══════════════

theorem msgSig_set_id (msg : Message) (v : Option String) :
    msgSig { msg with id := v } = msgSig msg := rfl

theorem jsTruthyS_some (o : Option String) (ht : jsTruthyS o = true) :
    o = some (o.getD "") := by
  cases o with
  | none => simp [jsTruthyS] at ht
  | some s => rfl

theorem sanRun_cons_truthy (gen : Nat → String) (msg : Message) (rest : List Message)
    (ctr : Nat) (ids sigs : List String) (ht : jsTruthyS msg.id = true) :
    sanRun gen (msg :: rest) ctr ids sigs =
      if msg.id.getD "" ∈ ids then sanRun gen rest ctr ids sigs
      else
        match msgSig msg with
        | some s =>
          if s ∈ sigs then sanRun gen rest ctr ids sigs
          else
            ((msg :: (sanRun gen rest ctr (msg.id.getD "" :: ids) (s :: sigs)).1),
             (sanRun gen rest ctr (msg.id.getD "" :: ids) (s :: sigs)).2)
        | none =>
          ((msg :: (sanRun gen rest ctr (msg.id.getD "" :: ids) sigs).1),
           (sanRun gen rest ctr (msg.id.getD "" :: ids) sigs).2) := by
  cases hs : msgSig msg <;> simp [sanRun, ht, hs]

theorem sanRun_cons_assign (gen : Nat → String) (msg : Message) (rest : List Message)
    (ctr : Nat) (ids sigs : List String) (ht : jsTruthyS msg.id = false) :
    sanRun gen (msg :: rest) ctr ids sigs =
      if gen ctr ∈ ids then sanRun gen rest (ctr + 1) ids sigs
      else
        match msgSig msg with
        | some s =>
          if s ∈ sigs then sanRun gen rest (ctr + 1) ids sigs
          else
            (({ msg with id := some (gen ctr) } ::
                (sanRun gen rest (ctr + 1) (gen ctr :: ids) (s :: sigs)).1),
             (sanRun gen rest (ctr + 1) (gen ctr :: ids) (s :: sigs)).2)
        | none =>
          (({ msg with id := some (gen ctr) } ::
              (sanRun gen rest (ctr + 1) (gen ctr :: ids) sigs).1),
           (sanRun gen rest (ctr + 1) (gen ctr :: ids) sigs).2) := by
  cases hs : msgSig msg <;> simp [sanRun, ht, msgSig_set_id, hs]

theorem sanRun_append_truthy (gen : Nat → String) (t h : List Message) :
    ∀ (ctr : Nat) (ids sigs : List String), (∀ x ∈ h, jsTruthyS x.id = true) →
      sanRun gen (h ++ t) ctr ids sigs =
        ((sanRun gen h ctr ids sigs).1 ++
           (sanRun gen t (sanRun gen h ctr ids sigs).2.1
              (sanRun gen h ctr ids sigs).2.2.1 (sanRun gen h ctr ids sigs).2.2.2).1,
         (sanRun gen t (sanRun gen h ctr ids sigs).2.1
            (sanRun gen h ctr ids sigs).2.2.1 (sanRun gen h ctr ids sigs).2.2.2).2) := by
  induction h with
  | nil => intro ctr ids sigs _; simp [sanRun]
  | cons msg rest ih =>
    intro ctr ids sigs hT
    have ht : jsTruthyS msg.id = true := hT msg (by simp)
    have hTr : ∀ x ∈ rest, jsTruthyS x.id = true := fun x hx => hT x (by simp [hx])
    rw [List.cons_append, sanRun_cons_truthy gen msg (rest ++ t) ctr ids sigs ht,
       sanRun_cons_truthy gen msg rest ctr ids sigs ht]
    by_cases hid : msg.id.getD "" ∈ ids
    · simp only [hid, if_true]
      exact ih ctr ids sigs hTr
    · cases hs : msgSig msg with
      | none => simp [hid, ih ctr (msg.id.getD "" :: ids) sigs hTr]
      | some s =>
        by_cases hsig : s ∈ sigs
        · simp only [hid, if_false, hsig, if_true]
          exact ih ctr ids sigs hTr
        · simp [hid, hsig, ih ctr (msg.id.getD "" :: ids) (s :: sigs) hTr]

theorem sanRun_sigs_mono (gen : Nat → String) (h : List Message) :
    ∀ (ctr : Nat) (ids sigs : List String) (s0 : String), s0 ∈ sigs →
      s0 ∈ (sanRun gen h ctr ids sigs).2.2.2 := by
  induction h with
  | nil => intro ctr ids sigs s0 hs; simpa [sanRun] using hs
  | cons msg rest ih =>
    intro ctr ids sigs s0 hs0
    by_cases ht : jsTruthyS msg.id
    · rw [sanRun_cons_truthy gen msg rest ctr ids sigs ht]
      by_cases hid : msg.id.getD "" ∈ ids
      · simpa [hid] using ih ctr ids sigs s0 hs0
      · cases hs : msgSig msg with
        | none => simpa [hid] using ih ctr (msg.id.getD "" :: ids) sigs s0 hs0
        | some s =>
          by_cases hsig : s ∈ sigs
          · simpa [hid, hsig] using ih ctr ids sigs s0 hs0
          · simpa [hid, hsig] using
              ih ctr (msg.id.getD "" :: ids) (s :: sigs) s0 (by simp [hs0])
    · rw [sanRun_cons_assign gen msg rest ctr ids sigs (by simpa using ht)]
      by_cases hid : gen ctr ∈ ids
      · simpa [hid] using ih (ctr + 1) ids sigs s0 hs0
      · cases hs : msgSig msg with
        | none => simpa [hid] using ih (ctr + 1) (gen ctr :: ids) sigs s0 hs0
        | some s =>
          by_cases hsig : s ∈ sigs
          · simpa [hid, hsig] using ih (ctr + 1) ids sigs s0 hs0
          · simpa [hid, hsig] using
              ih (ctr + 1) (gen ctr :: ids) (s :: sigs) s0 (by simp [hs0])

theorem sanRun_acc_ids (gen : Nat → String) (h : List Message) :
    ∀ (ctr : Nat) (ids sigs : List String) (j : String),
      (∀ x ∈ h, jsTruthyS x.id = true) →
      j ∈ (sanRun gen h ctr ids sigs).2.2.1 →
      j ∈ ids ∨ ∃ z ∈ h, z.id.getD "" = j := by
  induction h with
  | nil => intro ctr ids sigs j _ hj; simp [sanRun] at hj; exact Or.inl hj
  | cons msg rest ih =>
    intro ctr ids sigs j hT hj
    have ht : jsTruthyS msg.id = true := hT msg (by simp)
    have hTr : ∀ x ∈ rest, jsTruthyS x.id = true := fun x hx => hT x (by simp [hx])
    rw [sanRun_cons_truthy gen msg rest ctr ids sigs ht] at hj
    by_cases hid : msg.id.getD "" ∈ ids
    · simp only [hid, if_true] at hj
      rcases ih ctr ids sigs j hTr hj with h1 | ⟨z, hz, hzj⟩
      · exact Or.inl h1
      · exact Or.inr ⟨z, by simp [hz], hzj⟩
    · cases hs : msgSig msg with
      | none =>
        simp only [hid, if_false, hs] at hj
        rcases ih ctr (msg.id.getD "" :: ids) sigs j hTr hj with h1 | ⟨z, hz, hzj⟩
        · rcases List.mem_cons.mp h1 with h2 | h2
          · exact Or.inr ⟨msg, by simp, h2.symm⟩
          · exact Or.inl h2
        · exact Or.inr ⟨z, by simp [hz], hzj⟩
      | some s =>
        by_cases hsig : s ∈ sigs
        · simp only [hid, if_false, hs, hsig, if_true] at hj
          rcases ih ctr ids sigs j hTr hj with h1 | ⟨z, hz, hzj⟩
          · exact Or.inl h1
          · exact Or.inr ⟨z, by simp [hz], hzj⟩
        · simp only [hid, if_false, hs, hsig] at hj
          rcases ih ctr (msg.id.getD "" :: ids) (s :: sigs) j hTr hj with h1 | ⟨z, hz, hzj⟩
          · rcases List.mem_cons.mp h1 with h2 | h2
            · exact Or.inr ⟨msg, by simp, h2.symm⟩
            · exact Or.inl h2
          · exact Or.inr ⟨z, by simp [hz], hzj⟩

theorem sanRun_acc_sigs (gen : Nat → String) (h : List Message) :
    ∀ (ctr : Nat) (ids sigs : List String) (s0 : String),
      s0 ∈ (sanRun gen h ctr ids sigs).2.2.2 →
      s0 ∈ sigs ∨ ∃ z ∈ h, msgSig z = some s0 := by
  induction h with
  | nil => intro ctr ids sigs s0 hj; simp [sanRun] at hj; exact Or.inl hj
  | cons msg rest ih =>
    intro ctr ids sigs s0 hj
    have step : ∀ (c2 : Nat) (ids2 : List String) (sigs2 : List String),
        s0 ∈ (sanRun gen rest c2 ids2 sigs2).2.2.2 →
        (s0 ∈ sigs2 ∨ ∃ z ∈ rest, msgSig z = some s0) := fun c2 ids2 sigs2 hh =>
      ih c2 ids2 sigs2 s0 hh
    by_cases ht : jsTruthyS msg.id
    · rw [sanRun_cons_truthy gen msg rest ctr ids sigs ht] at hj
      by_cases hid : msg.id.getD "" ∈ ids
      · simp only [hid, if_true] at hj
        rcases step ctr ids sigs hj with h1 | ⟨z, hz, hzs⟩
        · exact Or.inl h1
        · exact Or.inr ⟨z, by simp [hz], hzs⟩
      · cases hs : msgSig msg with
        | none =>
          simp only [hid, if_false, hs] at hj
          rcases step ctr (msg.id.getD "" :: ids) sigs hj with h1 | ⟨z, hz, hzs⟩
          · exact Or.inl h1
          · exact Or.inr ⟨z, by simp [hz], hzs⟩
        | some s =>
          by_cases hsig : s ∈ sigs
          · simp only [hid, if_false, hs, hsig, if_true] at hj
            rcases step ctr ids sigs hj with h1 | ⟨z, hz, hzs⟩
            · exact Or.inl h1
            · exact Or.inr ⟨z, by simp [hz], hzs⟩
          · simp only [hid, if_false, hs, hsig] at hj
            rcases step ctr (msg.id.getD "" :: ids) (s :: sigs) hj with h1 | ⟨z, hz, hzs⟩
            · rcases List.mem_cons.mp h1 with h2 | h2
              · exact Or.inr ⟨msg, by simp, by rw [hs, h2]⟩
              · exact Or.inl h2
            · exact Or.inr ⟨z, by simp [hz], hzs⟩
    · rw [sanRun_cons_assign gen msg rest ctr ids sigs (by simpa using ht)] at hj
      by_cases hid : gen ctr ∈ ids
      · simp only [hid, if_true] at hj
        rcases step (ctr + 1) ids sigs hj with h1 | ⟨z, hz, hzs⟩
        · exact Or.inl h1
        · exact Or.inr ⟨z, by simp [hz], hzs⟩
      · cases hs : msgSig msg with
        | none =>
          simp only [hid, if_false, hs] at hj
          rcases step (ctr + 1) (gen ctr :: ids) sigs hj with h1 | ⟨z, hz, hzs⟩
          · exact Or.inl h1
          · exact Or.inr ⟨z, by simp [hz], hzs⟩
        | some s =>
          by_cases hsig : s ∈ sigs
          · simp only [hid, if_false, hs, hsig, if_true] at hj
            rcases step (ctr + 1) ids sigs hj with h1 | ⟨z, hz, hzs⟩
            · exact Or.inl h1
            · exact Or.inr ⟨z, by simp [hz], hzs⟩
          · simp only [hid, if_false, hs, hsig] at hj
            rcases step (ctr + 1) (gen ctr :: ids) (s :: sigs) hj with h1 | ⟨z, hz, hzs⟩
            · rcases List.mem_cons.mp h1 with h2 | h2
              · exact Or.inr ⟨msg, by simp, by rw [hs, h2]⟩
              · exact Or.inl h2
            · exact Or.inr ⟨z, by simp [hz], hzs⟩

theorem sanRun_out_sig_in_acc (gen : Nat → String) (h : List Message) :
    ∀ (ctr : Nat) (ids sigs : List String) (z : Message) (s0 : String),
      z ∈ (sanRun gen h ctr ids sigs).1 → msgSig z = some s0 →
      s0 ∈ (sanRun gen h ctr ids sigs).2.2.2 := by
  induction h with
  | nil => intro ctr ids sigs z s0 hz _; simp [sanRun] at hz
  | cons msg rest ih =>
    intro ctr ids sigs z s0 hz hzs
    by_cases ht : jsTruthyS msg.id
    · rw [sanRun_cons_truthy gen msg rest ctr ids sigs ht] at hz
      rw [sanRun_cons_truthy gen msg rest ctr ids sigs ht]
      by_cases hid : msg.id.getD "" ∈ ids
      · simp only [hid, if_true] at hz ⊢
        exact ih ctr ids sigs z s0 hz hzs
      · cases hs : msgSig msg with
        | none =>
          simp only [hid, if_false, hs] at hz ⊢
          rcases List.mem_cons.mp hz with h2 | h2
          · rw [h2, hs] at hzs; exact absurd hzs (by simp)
          · exact ih ctr (msg.id.getD "" :: ids) sigs z s0 h2 hzs
        | some s =>
          by_cases hsig : s ∈ sigs
          · simp only [hid, if_false, hs, hsig, if_true] at hz ⊢
            exact ih ctr ids sigs z s0 hz hzs
          · simp only [hid, if_false, hs, hsig] at hz ⊢
            rcases List.mem_cons.mp hz with h2 | h2
            · have : s0 = s := by rw [h2] at hzs; rw [hs] at hzs; exact (Option.some_inj.mp hzs).symm
              exact sanRun_sigs_mono gen rest ctr (msg.id.getD "" :: ids) (s :: sigs) s0
                (by simp [this])
            · exact ih ctr (msg.id.getD "" :: ids) (s :: sigs) z s0 h2 hzs
    · rw [sanRun_cons_assign gen msg rest ctr ids sigs (by simpa using ht)] at hz
      rw [sanRun_cons_assign gen msg rest ctr ids sigs (by simpa using ht)]
      by_cases hid : gen ctr ∈ ids
      · simp only [hid, if_true] at hz ⊢
        exact ih (ctr + 1) ids sigs z s0 hz hzs
      · cases hs : msgSig msg with
        | none =>
          simp only [hid, if_false, hs] at hz ⊢
          rcases List.mem_cons.mp hz with h2 | h2
          · rw [h2, msgSig_set_id, hs] at hzs; exact absurd hzs (by simp)
          · exact ih (ctr + 1) (gen ctr :: ids) sigs z s0 h2 hzs
        | some s =>
          by_cases hsig : s ∈ sigs
          · simp only [hid, if_false, hs, hsig, if_true] at hz ⊢
            exact ih (ctr + 1) ids sigs z s0 hz hzs
          · simp only [hid, if_false, hs, hsig] at hz ⊢
            rcases List.mem_cons.mp hz with h2 | h2
            · have : s0 = s := by
                rw [h2, msgSig_set_id, hs] at hzs
                exact (Option.some_inj.mp hzs).symm
              exact sanRun_sigs_mono gen rest (ctr + 1) (gen ctr :: ids) (s :: sigs) s0
                (by simp [this])
            · exact ih (ctr + 1) (gen ctr :: ids) (s :: sigs) z s0 h2 hzs

theorem okChainB_truthy (h : List Message) :
    ∀ (ids sigs : List String), okChainB ids sigs h = true →
      ∀ x ∈ h, jsTruthyS x.id = true := by
  induction h with
  | nil => intro ids sigs _ x hx; simp at hx
  | cons msg rest ih =>
    intro ids sigs hok x hx
    cases hs : msgSig msg <;> rw [okChainB] at hok <;>
      simp only [hs, Bool.and_eq_true] at hok
    · rcases hok with ⟨⟨ht, _⟩, hrest⟩
      rcases List.mem_cons.mp hx with h2 | h2
      · rw [h2]; exact ht
      · exact ih (msg.id.getD "" :: ids) sigs hrest x h2
    · rcases hok with ⟨⟨ht, _⟩, _, hrest⟩
      rcases List.mem_cons.mp hx with h2 | h2
      · rw [h2]; exact ht
      · exact ih (msg.id.getD "" :: ids) (_ :: sigs) hrest x h2

theorem sanRun_ok (gen : Nat → String) (h : List Message) :
    ∀ (ctr : Nat) (ids sigs : List String), (∀ x ∈ h, jsTruthyS x.id = true) →
      okChainB ids sigs (sanRun gen h ctr ids sigs).1 = true := by
  induction h with
  | nil => intro ctr ids sigs _; simp [sanRun, okChainB]
  | cons msg rest ih =>
    intro ctr ids sigs hT
    have ht : jsTruthyS msg.id = true := hT msg (by simp)
    have hTr : ∀ x ∈ rest, jsTruthyS x.id = true := fun x hx => hT x (by simp [hx])
    rw [sanRun_cons_truthy gen msg rest ctr ids sigs ht]
    by_cases hid : msg.id.getD "" ∈ ids
    · simpa [hid] using ih ctr ids sigs hTr
    · cases hs : msgSig msg with
      | none =>
        simp only [hid, if_false, hs]
        rw [okChainB]
        simp [ht, hs, hid, ih ctr (msg.id.getD "" :: ids) sigs hTr]
      | some s =>
        by_cases hsig : s ∈ sigs
        · simpa [hid, hsig] using ih ctr ids sigs hTr
        · simp only [hid, if_false, hs, hsig]
          rw [okChainB]
          simp [ht, hs, hid, hsig, ih ctr (msg.id.getD "" :: ids) (s :: sigs) hTr]

theorem sanRun_of_okChainB (gen : Nat → String) (h : List Message) :
    ∀ (ctr : Nat) (ids sigs : List String), okChainB ids sigs h = true →
      (sanRun gen h ctr ids sigs).1 = h := by
  induction h with
  | nil => intro ctr ids sigs _; simp [sanRun]
  | cons msg rest ih =>
    intro ctr ids sigs hok
    cases hs : msgSig msg <;> rw [okChainB] at hok <;>
      simp only [hs, Bool.and_eq_true] at hok
    · rcases hok with ⟨⟨ht, hid⟩, hrest⟩
      rw [sanRun_cons_truthy gen msg rest ctr ids sigs ht]
      have hid' : msg.id.getD "" ∉ ids := by simpa using hid
      simp [hid', hs, ih ctr (msg.id.getD "" :: ids) sigs hrest]
    · rcases hok with ⟨⟨ht, hid⟩, hsig, hrest⟩
      rw [sanRun_cons_truthy gen msg rest ctr ids sigs ht]
      have hid' : msg.id.getD "" ∉ ids := by simpa using hid
      have hsig' := hsig
      simp only [Bool.not_eq_true', decide_eq_false_iff_not] at hsig'
      simp [hid', hs, hsig', ih ctr (msg.id.getD "" :: ids) (_ :: sigs) hrest]

-- ═══════════════ Append-core lemmas ═══════════════

theorem any_eq_false_of_all_not (l : List α) (p : α → Bool)
    (h : l.all (fun x => !(p x)) = true) : l.any p = false := by
  rw [Bool.eq_false_iff]
  intro hcon
  rw [List.any_eq_true] at hcon
  obtain ⟨x, hx, hpx⟩ := hcon
  have := List.all_eq_true.mp h x hx
  simp [hpx] at this

theorem countP_append_one (l : List α) (p : α → Bool) (x : α)
    (hl : l.all (fun y => !(p y)) = true) (hx : p x = true) :
    (l ++ [x]).countP p = 1 := by
  rw [List.countP_append]
  have h0 : l.countP p = 0 := by
    rw [List.countP_eq_zero]
    intro a ha
    have := List.all_eq_true.mp hl a ha
    simpa using this
  simp [h0, List.countP_cons, hx]

/-- A fresh message (id and signature absent from a well-formed history)
survives sanitization at the end of the history unchanged. -/
theorem sanitize_append_fresh (gen : Nat → String) (h : List Message) (m : Message)
    (hok : okChainB [] [] h = true) (ht : jsTruthyS m.id = true)
    (hid : h.all (fun x => !(x.id == m.id)) = true)
    (hsig : sigFreeB m h = true) :
    sanitizeHistory gen (h ++ [m]) = h ++ [m] := by
  have hT : ∀ x ∈ h, jsTruthyS x.id = true := okChainB_truthy h [] [] hok
  have hidm : m.id.getD "" ∉ (sanRun gen h 0 [] []).2.2.1 := by
    intro hmem
    rcases sanRun_acc_ids gen h 0 [] [] (m.id.getD "") hT hmem with h1 | ⟨z, hz, hzj⟩
    · simp at h1
    · have hzt := hT z hz
      have hz1 : z.id = m.id := by
        rw [jsTruthyS_some z.id hzt, jsTruthyS_some m.id ht, hzj]
      have := List.all_eq_true.mp hid z hz
      rw [hz1] at this
      simp at this
  unfold sanitizeHistory
  rw [sanRun_append_truthy gen [m] h 0 [] [] hT]
  rw [sanRun_cons_truthy gen m [] _ _ _ ht]
  cases hmsig : msgSig m with
  | none =>
    simp [hidm, hmsig, sanRun, sanRun_of_okChainB gen h 0 [] [] hok]
  | some sg =>
    have hsgm : sg ∉ (sanRun gen h 0 [] []).2.2.2 := by
      intro hmem
      rcases sanRun_acc_sigs gen h 0 [] [] sg hmem with h1 | ⟨z, hz, hzs⟩
      · simp at h1
      · unfold sigFreeB at hsig
        rw [hmsig] at hsig
        have := List.all_eq_true.mp hsig z hz
        rw [hzs] at this
        simp at this
    simp [hidm, hmsig, hsgm, sanRun, sanRun_of_okChainB gen h 0 [] [] hok]

theorem appendCore_fresh (c : Ctx) (h : List Message) (m : Message)
    (hok : okChainB [] [] h = true) (ht : jsTruthyS m.id = true)
    (hid : h.all (fun x => !(x.id == m.id)) = true)
    (hsig : sigFreeB m h = true) :
    appendCore c h m = h ++ [m] := by
  have hany : h.any (fun x => x.id == m.id) = false := any_eq_false_of_all_not _ _ hid
  unfold appendCore
  rw [hany]
  simp only [Bool.false_eq_true, if_false, DEFAULTS_cap, jsGt_none]
  exact sanitize_append_fresh c.gen h m hok ht hid hsig

theorem appendCore_dup_id (c : Ctx) (h : List Message) (m : Message)
    (hok : okChainB [] [] h = true)
    (hdup : h.any (fun x => x.id == m.id) = true) :
    appendCore c h m = h := by
  unfold appendCore
  rw [hdup]
  simp only [if_true]
  exact sanRun_of_okChainB c.gen h 0 [] [] hok

theorem appendCore_dup_sig (c : Ctx) (h : List Message) (m : Message) (sg : String)
    (hok : okChainB [] [] h = true) (ht : jsTruthyS m.id = true)
    (hid : h.all (fun x => !(x.id == m.id)) = true)
    (hmsig : msgSig m = some sg)
    (z : Message) (hz : z ∈ h) (hzs : msgSig z = some sg) :
    appendCore c h m = h := by
  have hT : ∀ x ∈ h, jsTruthyS x.id = true := okChainB_truthy h [] [] hok
  have hany : h.any (fun x => x.id == m.id) = false := any_eq_false_of_all_not _ _ hid
  have hsg_in : sg ∈ (sanRun c.gen h 0 [] []).2.2.2 := by
    have hout : z ∈ (sanRun c.gen h 0 [] []).1 := by
      rw [sanRun_of_okChainB c.gen h 0 [] [] hok]
      exact hz
    exact sanRun_out_sig_in_acc c.gen h 0 [] [] z sg hout hzs
  unfold appendCore
  rw [hany]
  simp only [Bool.false_eq_true, if_false, DEFAULTS_cap, jsGt_none]
  unfold sanitizeHistory
  rw [sanRun_append_truthy c.gen [m] h 0 [] [] hT]
  rw [sanRun_cons_truthy c.gen m [] _ _ _ ht]
  by_cases hidm : m.id.getD "" ∈ (sanRun c.gen h 0 [] []).2.2.1
  · simp [hidm, sanRun, sanRun_of_okChainB c.gen h 0 [] [] hok]
  · simp [hidm, hmsig, hsg_in, sanRun, sanRun_of_okChainB c.gen h 0 [] [] hok]

theorem okChainB_append_fresh (gen : Nat → String) (h : List Message) (m : Message)
    (hok : okChainB [] [] h = true) (ht : jsTruthyS m.id = true)
    (hid : h.all (fun x => !(x.id == m.id)) = true)
    (hsig : sigFreeB m h = true) :
    okChainB [] [] (h ++ [m]) = true := by
  have hT : ∀ x ∈ h ++ [m], jsTruthyS x.id = true := by
    intro x hx
    rcases List.mem_append.mp hx with h1 | h1
    · exact okChainB_truthy h [] [] hok x h1
    · simp at h1; rw [h1]; exact ht
  have hrun := sanRun_ok gen (h ++ [m]) 0 [] [] hT
  have heq : (sanRun gen (h ++ [m]) 0 [] []).1 = h ++ [m] :=
    sanitize_append_fresh gen h m hok ht hid hsig
  rwa [heq] at hrun

-- ═══════════════ Unfolding lemmas for the append operations ═══════════════

theorem prepMsg_truthy (c : Ctx) (msg : Message) (ht : jsTruthyS msg.id = true) :
    prepMsg c msg = { msg with messageContent := msg.messageContent.map c.parseRich } := by
  simp [prepMsg, ht]

theorem ensureShell_existing (u1 u2 : String) (pcs : List (String × Chat)) (v : Chat)
    (hm : mget pcs (getPrivateChatKey u1 u2) = some v) :
    ensureShell u1 u2 pcs = pcs := by
  simp [ensureShell, hm]

theorem addPrivateMessage_existing (c : Ctx) (u1 u2 : String) (msg : Message) (s : DM)
    (us : List String) (h : List Message)
    (hm : mget s.privateChats (getPrivateChatKey u1 u2) = some ⟨us, h⟩)
    (hkeys : msg.hasKeys = true) :
    addPrivateMessage c u1 u2 msg s =
      { s with
        privateChats := mset s.privateChats (getPrivateChatKey u1 u2)
          ⟨us, appendCore c h (prepMsg c msg)⟩,
        lastActivity := mset s.lastActivity (getPrivateChatKey u1 u2) c.now } := by
  simp [addPrivateMessage, ensureShell_existing u1 u2 s.privateChats _ hm, hm, hkeys]

theorem addGroupMessage_existing (c : Ctx) (gid : String) (msg : Message) (s : DM)
    (g : Group) (hm : mget s.groupChats gid = some g) (hkeys : msg.hasKeys = true) :
    addGroupMessage c gid msg s =
      { s with
        groupChats := mset s.groupChats gid
          { g with history := appendCore c g.history (prepMsg c msg) },
        lastActivity := mset s.lastActivity gid c.now } := by
  simp [addGroupMessage, hm, hkeys]

-- ═══════════════ Key-comparison lemmas ═══════════════

theorem charUnitsLe_total (xs ys : List Char) :
    charUnitsLe xs ys = true ∨ charUnitsLe ys xs = true := by
  induction xs generalizing ys with
  | nil => exact Or.inl rfl
  | cons x xs ih =>
    cases ys with
    | nil => exact Or.inr rfl
    | cons y ys =>
      rcases Nat.lt_trichotomy x.toNat y.toNat with h | h | h
      · exact Or.inl (by simp [charUnitsLe, h])
      · rcases ih ys with h1 | h1
        · exact Or.inl (by simp [charUnitsLe, h, h1])
        · exact Or.inr (by simp [charUnitsLe, h, h1])
      · exact Or.inr (by simp [charUnitsLe, h])

theorem charUnitsLe_antisymm (xs ys : List Char) (h1 : charUnitsLe xs ys = true)
    (h2 : charUnitsLe ys xs = true) : xs = ys := by
  induction xs generalizing ys with
  | nil =>
    cases ys with
    | nil => rfl
    | cons y ys => simp [charUnitsLe] at h2
  | cons x xs ih =>
    cases ys with
    | nil => simp [charUnitsLe] at h1
    | cons y ys =>
      rcases Nat.lt_trichotomy x.toNat y.toNat with h | h | h
      · rw [charUnitsLe] at h2
        simp [Nat.lt_asymm h, h] at h2
      · have hxy : x = y := Char.ext (UInt32.ext h)
        subst hxy
        rw [charUnitsLe] at h1 h2
        simp at h1 h2
        rw [ih ys h1 h2]
      · rw [charUnitsLe] at h1
        simp [Nat.lt_asymm h, h] at h1

-- ═══════════════ Concrete fixtures used by witnesses ═══════════════

/-- A concrete context: identity rich-content transformation, constant
randomID supply, fixed fresh ids and clock. -/
def ctx1 : Ctx :=
  { parseRich := fun s => s, gen := fun _ => "R", freshMsgId := "F",
    freshLogId := "L", now := 1 }

def msgA : Message :=
  { id := some "m1", senderId := some "alice", messageContent := some "hi",
    timestamp := some 5 }

def msgB : Message :=
  { id := some "m2", senderId := some "alice", messageContent := some "yo",
    timestamp := some 6 }

def sE : DM := { privateChats := [("a-b", { users := ["a", "b"], history := [msgA] })] }

def sC7 : DM := { mutedConversations := ["c1"], unreadCounts := [("c1", 3)] }

-- ═══════════════ Claim theorems ═══════════════

/-- C9: the private-conversation key is symmetric: getPrivateChatKey a b
equals getPrivateChatKey b a for all user ids, so either party computes
the same key. -/
theorem C9_private_key_symmetric (a b : String) :
    getPrivateChatKey a b = getPrivateChatKey b a := by
  unfold getPrivateChatKey
  by_cases h1 : charUnitsLe a.data b.data = true
  · by_cases h2 : charUnitsLe b.data a.data = true
    · have hd : a.data = b.data := charUnitsLe_antisymm a.data b.data h1 h2
      have hab : a = b := by
        cases a; cases b
        exact congrArg String.mk hd
      subst hab; rfl
    · simp [h1, h2]
  · have h2 : charUnitsLe b.data a.data = true :=
      (charUnitsLe_total a.data b.data).resolve_left h1
    simp [h1, h2]

/-- C7: incrementing the unread count of a muted conversation id is a
no-op (any number of increments leaves the whole state unchanged), and
unmuting does not touch the stored counts, so the count resumes from its
value at the time of muting. -/
theorem C7_unread_mute_suppression (conversationId : String) (s : DM)
    (hmut : conversationId ∈ s.mutedConversations) :
    (∀ k : Nat, (incrementUnread conversationId)^[k] s = s) ∧
    (toggleMuted conversationId s).unreadCounts = s.unreadCounts ∧
    getUnreadCount conversationId (toggleMuted conversationId s) =
      getUnreadCount conversationId s := by
  have h1 : incrementUnread conversationId s = s := by simp [incrementUnread, hmut]
  refine ⟨?_, ?_, ?_⟩
  · intro k
    induction k with
    | zero => rfl
    | succ n ihn => rw [Function.iterate_succ_apply, h1, ihn]
  · simp [toggleMuted, hmut]
  · simp [toggleMuted, getUnreadCount, hmut]

theorem C7_witness :
    (incrementUnread "c1")^[2] sC7 = sC7 ∧
    (toggleMuted "c1" sC7).unreadCounts = sC7.unreadCounts ∧
    getUnreadCount "c1" (toggleMuted "c1" sC7) = getUnreadCount "c1" sC7 :=
  ⟨(C7_unread_mute_suppression "c1" sC7 (by decide)).1 2,
   (C7_unread_mute_suppression "c1" sC7 (by decide)).2⟩

/-- C6: editMessage and deleteMessage return false instead of raising when
the conversation is absent or the message id is not in its history, and
leave the state completely unchanged, for both private and group
conversations. -/
theorem C6_edit_delete_not_found (c : Ctx) (cid mid nc : String) (s : DM) :
    (mget s.privateChats cid = none → editMessage c cid mid nc false s = (s, false)) ∧
    (mget s.groupChats cid = none → editMessage c cid mid nc true s = (s, false)) ∧
    (mget s.privateChats cid = none → deleteMessage cid mid false s = (s, false)) ∧
    (mget s.groupChats cid = none → deleteMessage cid mid true s = (s, false)) ∧
    (∀ ch, mget s.privateChats cid = some ch →
      ch.history.all (fun x => !(x.id == some mid)) = true →
      editMessage c cid mid nc false s = (s, false)) ∧
    (∀ g, mget s.groupChats cid = some g →
      g.history.all (fun x => !(x.id == some mid)) = true →
      editMessage c cid mid nc true s = (s, false)) ∧
    (∀ ch, mget s.privateChats cid = some ch →
      ch.history.all (fun x => !(x.id == some mid)) = true →
      deleteMessage cid mid false s = (s, false)) ∧
    (∀ g, mget s.groupChats cid = some g →
      g.history.all (fun x => !(x.id == some mid)) = true →
      deleteMessage cid mid true s = (s, false)) := by
  refine ⟨?_, ?_, ?_, ?_, ?_, ?_, ?_, ?_⟩
  · intro hm; simp [editMessage, hm]
  · intro hm; simp [editMessage, hm]
  · intro hm; simp [deleteMessage, hm]
  · intro hm; simp [deleteMessage, hm]
  · intro ch hm hall
    have h0 := any_eq_false_of_all_not _ _ hall
    simp [editMessage, hm, h0]
  · intro g hm hall
    have h0 := any_eq_false_of_all_not _ _ hall
    simp [editMessage, hm, h0]
  · intro ch hm hall
    have h0 := any_eq_false_of_all_not _ _ hall
    simp [deleteMessage, hm, h0]
  · intro g hm hall
    have h0 := any_eq_false_of_all_not _ _ hall
    simp [deleteMessage, hm, h0]

theorem C6_witness :
    editMessage ctx1 "nochat" "m" "x" false ({} : DM) = (({} : DM), false) ∧
    deleteMessage "a-b" "missing" false sE = (sE, false) :=
  ⟨(C6_edit_delete_not_found ctx1 "nochat" "m" "x" ({} : DM)).1 (by decide),
   (C6_edit_delete_not_found ctx1 "a-b" "missing" "x" sE).2.2.2.2.2.2.1
     { users := ["a", "b"], history := [msgA] } (by decide) (by decide)⟩

def rosterC8 : List User := [{ id := "u1", name := "Ulf", isGM := false, active := true }]

def sC8 : DM := { typingUsers := [("conv", [("u1", 0)])] }

/-- C8 is refuted by the code: a typing entry last refreshed at time 0 and
read at time 1000000 (far beyond the 5000 ms typingTimeout of
Constants.js) is neither pruned from the typing map nor excluded from the
returned list, because DataManager.getTypingUsers compares the age against
DEFAULTS.TYPING_TIMEOUT, a key Constants.js does not define; the
comparison against undefined is always false.  The second conjunct shows
the entry is stale with respect to the typingTimeout value the constants
file actually defines. -/
theorem C8_stale_entry_not_pruned :
    getTypingUsers rosterC8 "me" 1000000 "conv" sC8 = (sC8, ["Ulf"]) ∧
    jsGt (1000000 - 0) (DEFAULTS "typingTimeout") = true := by
  constructor
  · decide
  · decide

/-- C5 is refuted by the code: a message object with neither text content
nor image is appended anyway; addPrivateMessage only skips a message with
no keys at all. -/
theorem C5_counterexample :
    ({ id := some "m1", senderId := some "alice", timestamp := some 1 } : Message).messageContent
        = none ∧
    ({ id := some "m1", senderId := some "alice", timestamp := some 1 } : Message).imageUrl
        = none ∧
    mget (addPrivateMessage ctx1 "alice" "bob"
        { id := some "m1", senderId := some "alice", timestamp := some 1 } ({} : DM)).privateChats
        "alice-bob"
      = some { users := ["alice", "bob"],
               history := [{ id := some "m1", senderId := some "alice", timestamp := some 1 }] } := by
  refine ⟨rfl, rfl, ?_⟩
  decide

/-- C5 amended: the append operations reject only a message object with no
keys at all; such an append adds nothing to any history and mutates
nothing except creating the empty private-conversation shell when absent.
A message with at least one key is appended even when it lacks both
content and image (see the counterexample). -/
theorem C5_amended_empty_object_only (c : Ctx) (u1 u2 gid : String)
    (m : Message) (s : DM) (hk : m.hasKeys = false) :
    addGroupMessage c gid m s = s ∧
    addPrivateMessage c u1 u2 m s =
      { s with privateChats := ensureShell u1 u2 s.privateChats } ∧
    (∀ k ch, mget (addPrivateMessage c u1 u2 m s).privateChats k = some ch →
      ch.history = ((mget s.privateChats k).map Chat.history).getD []) := by
  have hpriv : addPrivateMessage c u1 u2 m s =
      { s with privateChats := ensureShell u1 u2 s.privateChats } := by
    simp [addPrivateMessage, hk]
  refine ⟨?_, hpriv, ?_⟩
  · cases hm : mget s.groupChats gid <;> simp [addGroupMessage, hm, hk]
  · intro k ch hmk
    rw [hpriv] at hmk
    by_cases hp : (mget s.privateChats (getPrivateChatKey u1 u2)).isSome
    · have hsh : ensureShell u1 u2 s.privateChats = s.privateChats := by
        simp [ensureShell, hp]
      rw [hsh] at hmk
      simp [hmk]
    · have hsh : ensureShell u1 u2 s.privateChats =
          mset s.privateChats (getPrivateChatKey u1 u2) { users := [u1, u2], history := [] } := by
        simp [ensureShell, hp]
      rw [hsh] at hmk
      by_cases hkk : k = getPrivateChatKey u1 u2
      · rw [hkk, mget_mset_self] at hmk
        have hch : ch = { users := [u1, u2], history := [] } := by
          injection hmk with h3
          exact h3.symm
        have hnone : mget s.privateChats (getPrivateChatKey u1 u2) = none := by
          rcases hh : mget s.privateChats (getPrivateChatKey u1 u2) with _ | v
          · rfl
          · rw [hh] at hp; simp at hp
        rw [hch, hkk, hnone]
        rfl
      · rw [mget_mset_ne _ _ _ _ hkk] at hmk
        simp [hmk]

theorem C5_amended_witness :
    addGroupMessage ctx1 "g1" ({} : Message) sE = sE ∧
    addPrivateMessage ctx1 "a" "b" ({} : Message) sE =
      { sE with privateChats := ensureShell "a" "b" sE.privateChats } :=
  ⟨(C5_amended_empty_object_only ctx1 "a" "b" "g1" ({} : Message) sE (by decide)).1,
   (C5_amended_empty_object_only ctx1 "a" "b" "g1" ({} : Message) sE (by decide)).2.1⟩

theorem prepMsg_id_truthy (c : Ctx) (msg : Message) (ht : jsTruthyS msg.id = true) :
    (prepMsg c msg).id = msg.id := by
  rw [prepMsg_truthy c msg ht]

/-- C4 is refuted by the code: appending a fresh message to an existing
private conversation always grows the history by exactly one, whatever its
current length; with 500 messages already stored the result holds 501 and
nothing is evicted.  The trim step compares the length against
DEFAULTS.MAX_MESSAGE_HISTORY, a key Constants.js does not define (it
defines maxMessageHistory), and a JS comparison against undefined is
always false, so the cap is never applied. -/
theorem C4_append_never_evicts (c : Ctx) (u1 u2 : String) (msg : Message) (s : DM)
    (us : List String) (h : List Message)
    (hm : mget s.privateChats (getPrivateChatKey u1 u2) = some ⟨us, h⟩)
    (hkeys : msg.hasKeys = true) (ht : jsTruthyS msg.id = true)
    (hok : okChainB [] [] h = true)
    (hid : h.all (fun x => !(x.id == msg.id)) = true)
    (hsig : sigFreeB (prepMsg c msg) h = true) :
    mget (addPrivateMessage c u1 u2 msg s).privateChats (getPrivateChatKey u1 u2)
      = some ⟨us, h ++ [prepMsg c msg]⟩ ∧
    (h ++ [prepMsg c msg]).length = h.length + 1 := by
  have htp : jsTruthyS (prepMsg c msg).id = true := by
    rw [prepMsg_id_truthy c msg ht]; exact ht
  have hidp : h.all (fun x => !(x.id == (prepMsg c msg).id)) = true := by
    rw [prepMsg_id_truthy c msg ht]; exact hid
  have hcore := appendCore_fresh c h (prepMsg c msg) hok htp hidp hsig
  have hA := addPrivateMessage_existing c u1 u2 msg s us h hm hkeys
  rw [hcore] at hA
  constructor
  · rw [hA]
    exact mget_mset_self s.privateChats (getPrivateChatKey u1 u2) _
  · simp

def sC4 : DM := { privateChats := [("alice-bob", { users := ["alice", "bob"], history := [msgA] })] }

theorem C4_witness :
    mget (addPrivateMessage ctx1 "alice" "bob" msgB sC4).privateChats
        (getPrivateChatKey "alice" "bob")
      = some { users := ["alice", "bob"], history := [msgA] ++ [prepMsg ctx1 msgB] } ∧
    ([msgA] ++ [prepMsg ctx1 msgB]).length = [msgA].length + 1 :=
  C4_append_never_evicts ctx1 "alice" "bob" msgB sC4 ["alice", "bob"] [msgA]
    (by decide) (by decide) (by decide) (by decide) (by decide) (by decide)

/-- C3: appending a message twice to the same private or group
conversation, either with the same id or with the same
sender-timestamp-content fingerprint, leaves exactly one copy of it in the
history, and the second append is a silent no-op: the resulting store is
identical to the store after the first append. -/
theorem C3_idempotent_append (c : Ctx) :
    (∀ (u1 u2 : String) (msg : Message) (s : DM) (us : List String) (h : List Message),
      mget s.privateChats (getPrivateChatKey u1 u2) = some ⟨us, h⟩ →
      msg.hasKeys = true → jsTruthyS msg.id = true →
      okChainB [] [] h = true →
      h.all (fun x => !(x.id == msg.id)) = true →
      sigFreeB (prepMsg c msg) h = true →
      addPrivateMessage c u1 u2 msg (addPrivateMessage c u1 u2 msg s)
          = addPrivateMessage c u1 u2 msg s ∧
      ∃ hist, mget (addPrivateMessage c u1 u2 msg s).privateChats (getPrivateChatKey u1 u2)
            = some ⟨us, hist⟩ ∧
          hist.countP (fun x => x.id == msg.id) = 1) ∧
    (∀ (u1 u2 : String) (m1 m2 : Message) (s : DM) (us : List String) (h : List Message)
        (sg : String),
      mget s.privateChats (getPrivateChatKey u1 u2) = some ⟨us, h⟩ →
      m1.hasKeys = true → jsTruthyS m1.id = true →
      m2.hasKeys = true → jsTruthyS m2.id = true →
      (m1.id == m2.id) = false →
      okChainB [] [] h = true →
      h.all (fun x => !(x.id == m1.id)) = true →
      h.all (fun x => !(x.id == m2.id)) = true →
      msgSig (prepMsg c m1) = some sg →
      msgSig (prepMsg c m2) = some sg →
      sigFreeB (prepMsg c m1) h = true →
      addPrivateMessage c u1 u2 m2 (addPrivateMessage c u1 u2 m1 s)
          = addPrivateMessage c u1 u2 m1 s ∧
      ∃ hist, mget (addPrivateMessage c u1 u2 m1 s).privateChats (getPrivateChatKey u1 u2)
            = some ⟨us, hist⟩ ∧
          hist.countP (fun x => msgSig x == some sg) = 1) ∧
    (∀ (gid : String) (msg : Message) (s : DM) (g : Group),
      mget s.groupChats gid = some g →
      msg.hasKeys = true → jsTruthyS msg.id = true →
      okChainB [] [] g.history = true →
      g.history.all (fun x => !(x.id == msg.id)) = true →
      sigFreeB (prepMsg c msg) g.history = true →
      addGroupMessage c gid msg (addGroupMessage c gid msg s)
          = addGroupMessage c gid msg s ∧
      ∃ hist, mget (addGroupMessage c gid msg s).groupChats gid
            = some { g with history := hist } ∧
          hist.countP (fun x => x.id == msg.id) = 1) ∧
    (∀ (gid : String) (m1 m2 : Message) (s : DM) (g : Group) (sg : String),
      mget s.groupChats gid = some g →
      m1.hasKeys = true → jsTruthyS m1.id = true →
      m2.hasKeys = true → jsTruthyS m2.id = true →
      (m1.id == m2.id) = false →
      okChainB [] [] g.history = true →
      g.history.all (fun x => !(x.id == m1.id)) = true →
      g.history.all (fun x => !(x.id == m2.id)) = true →
      msgSig (prepMsg c m1) = some sg →
      msgSig (prepMsg c m2) = some sg →
      sigFreeB (prepMsg c m1) g.history = true →
      addGroupMessage c gid m2 (addGroupMessage c gid m1 s)
          = addGroupMessage c gid m1 s ∧
      ∃ hist, mget (addGroupMessage c gid m1 s).groupChats gid
            = some { g with history := hist } ∧
          hist.countP (fun x => msgSig x == some sg) = 1) := by
  refine ⟨?_, ?_, ?_, ?_⟩
  · intro u1 u2 msg s us h hm hkeys ht hok hid hsig
    have htp : jsTruthyS (prepMsg c msg).id = true := by
      rw [prepMsg_id_truthy c msg ht]; exact ht
    have hidp : h.all (fun x => !(x.id == (prepMsg c msg).id)) = true := by
      rw [prepMsg_id_truthy c msg ht]; exact hid
    have hcore := appendCore_fresh c h (prepMsg c msg) hok htp hidp hsig
    have hA1 := addPrivateMessage_existing c u1 u2 msg s us h hm hkeys
    rw [hcore] at hA1
    have hm1 : mget (addPrivateMessage c u1 u2 msg s).privateChats (getPrivateChatKey u1 u2)
        = some ⟨us, h ++ [prepMsg c msg]⟩ := by
      rw [hA1]
      exact mget_mset_self s.privateChats (getPrivateChatKey u1 u2) _
    have hok1 : okChainB [] [] (h ++ [prepMsg c msg]) = true :=
      okChainB_append_fresh c.gen h (prepMsg c msg) hok htp hidp hsig
    have hdup : (h ++ [prepMsg c msg]).any (fun x => x.id == (prepMsg c msg).id) = true := by
      rw [List.any_eq_true]
      exact ⟨prepMsg c msg, by simp, by simp⟩
    have hcore2 := appendCore_dup_id c (h ++ [prepMsg c msg]) (prepMsg c msg) hok1 hdup
    have hA2 := addPrivateMessage_existing c u1 u2 msg (addPrivateMessage c u1 u2 msg s)
        us (h ++ [prepMsg c msg]) hm1 hkeys
    rw [hcore2] at hA2
    constructor
    · rw [hA2, hA1]
      simp [mset_mset]
    · refine ⟨h ++ [prepMsg c msg], hm1, ?_⟩
      exact countP_append_one h _ (prepMsg c msg) hid
        (by rw [prepMsg_id_truthy c msg ht]; simp)
  · intro u1 u2 m1 m2 s us h sg hm hk1 ht1 hk2 ht2 hne hok hid1 hid2 hs1 hs2 hsig1
    have htp1 : jsTruthyS (prepMsg c m1).id = true := by
      rw [prepMsg_id_truthy c m1 ht1]; exact ht1
    have htp2 : jsTruthyS (prepMsg c m2).id = true := by
      rw [prepMsg_id_truthy c m2 ht2]; exact ht2
    have hidp1 : h.all (fun x => !(x.id == (prepMsg c m1).id)) = true := by
      rw [prepMsg_id_truthy c m1 ht1]; exact hid1
    have hcore := appendCore_fresh c h (prepMsg c m1) hok htp1 hidp1 hsig1
    have hA1 := addPrivateMessage_existing c u1 u2 m1 s us h hm hk1
    rw [hcore] at hA1
    have hm1 : mget (addPrivateMessage c u1 u2 m1 s).privateChats (getPrivateChatKey u1 u2)
        = some ⟨us, h ++ [prepMsg c m1]⟩ := by
      rw [hA1]
      exact mget_mset_self s.privateChats (getPrivateChatKey u1 u2) _
    have hok1 : okChainB [] [] (h ++ [prepMsg c m1]) = true :=
      okChainB_append_fresh c.gen h (prepMsg c m1) hok htp1 hidp1 hsig1
    have hidp2 : (h ++ [prepMsg c m1]).all (fun x => !(x.id == (prepMsg c m2).id)) = true := by
      rw [List.all_append]
      have h1 : h.all (fun x => !(x.id == (prepMsg c m2).id)) = true := by
        rw [prepMsg_id_truthy c m2 ht2]; exact hid2
      have h2 : ((prepMsg c m1).id == (prepMsg c m2).id) = false := by
        rw [prepMsg_id_truthy c m1 ht1, prepMsg_id_truthy c m2 ht2]; exact hne
      simp [h1, h2]
    have hcore2 := appendCore_dup_sig c (h ++ [prepMsg c m1]) (prepMsg c m2) sg hok1 htp2
      hidp2 hs2 (prepMsg c m1) (by simp) hs1
    have hA2 := addPrivateMessage_existing c u1 u2 m2 (addPrivateMessage c u1 u2 m1 s)
        us (h ++ [prepMsg c m1]) hm1 hk2
    rw [hcore2] at hA2
    constructor
    · rw [hA2, hA1]
      simp [mset_mset]
    · refine ⟨h ++ [prepMsg c m1], hm1, ?_⟩
      have hfree : h.all (fun x => !(msgSig x == some sg)) = true := by
        unfold sigFreeB at hsig1
        rw [hs1] at hsig1
        exact hsig1
      exact countP_append_one h _ (prepMsg c m1) hfree (by simp [hs1])
  · intro gid msg s g hm hkeys ht hok hid hsig
    have htp : jsTruthyS (prepMsg c msg).id = true := by
      rw [prepMsg_id_truthy c msg ht]; exact ht
    have hidp : g.history.all (fun x => !(x.id == (prepMsg c msg).id)) = true := by
      rw [prepMsg_id_truthy c msg ht]; exact hid
    have hcore := appendCore_fresh c g.history (prepMsg c msg) hok htp hidp hsig
    have hA1 := addGroupMessage_existing c gid msg s g hm hkeys
    rw [hcore] at hA1
    have hm1 : mget (addGroupMessage c gid msg s).groupChats gid
        = some { g with history := g.history ++ [prepMsg c msg] } := by
      rw [hA1]
      exact mget_mset_self s.groupChats gid _
    have hok1 : okChainB [] [] (g.history ++ [prepMsg c msg]) = true :=
      okChainB_append_fresh c.gen g.history (prepMsg c msg) hok htp hidp hsig
    have hdup : (g.history ++ [prepMsg c msg]).any
        (fun x => x.id == (prepMsg c msg).id) = true := by
      rw [List.any_eq_true]
      exact ⟨prepMsg c msg, by simp, by simp⟩
    have hcore2 := appendCore_dup_id c (g.history ++ [prepMsg c msg]) (prepMsg c msg) hok1 hdup
    have hA2 := addGroupMessage_existing c gid msg (addGroupMessage c gid msg s)
        { g with history := g.history ++ [prepMsg c msg] } hm1 hkeys
    simp only at hA2
    rw [hcore2] at hA2
    constructor
    · rw [hA2, hA1]
      simp [mset_mset]
    · refine ⟨g.history ++ [prepMsg c msg], hm1, ?_⟩
      exact countP_append_one g.history _ (prepMsg c msg) hid
        (by rw [prepMsg_id_truthy c msg ht]; simp)
  · intro gid m1 m2 s g sg hm hk1 ht1 hk2 ht2 hne hok hid1 hid2 hs1 hs2 hsig1
    have htp1 : jsTruthyS (prepMsg c m1).id = true := by
      rw [prepMsg_id_truthy c m1 ht1]; exact ht1
    have htp2 : jsTruthyS (prepMsg c m2).id = true := by
      rw [prepMsg_id_truthy c m2 ht2]; exact ht2
    have hidp1 : g.history.all (fun x => !(x.id == (prepMsg c m1).id)) = true := by
      rw [prepMsg_id_truthy c m1 ht1]; exact hid1
    have hcore := appendCore_fresh c g.history (prepMsg c m1) hok htp1 hidp1 hsig1
    have hA1 := addGroupMessage_existing c gid m1 s g hm hk1
    rw [hcore] at hA1
    have hm1 : mget (addGroupMessage c gid m1 s).groupChats gid
        = some { g with history := g.history ++ [prepMsg c m1] } := by
      rw [hA1]
      exact mget_mset_self s.groupChats gid _
    have hok1 : okChainB [] [] (g.history ++ [prepMsg c m1]) = true :=
      okChainB_append_fresh c.gen g.history (prepMsg c m1) hok htp1 hidp1 hsig1
    have hidp2 : (g.history ++ [prepMsg c m1]).all
        (fun x => !(x.id == (prepMsg c m2).id)) = true := by
      rw [List.all_append]
      have h1 : g.history.all (fun x => !(x.id == (prepMsg c m2).id)) = true := by
        rw [prepMsg_id_truthy c m2 ht2]; exact hid2
      have h2 : ((prepMsg c m1).id == (prepMsg c m2).id) = false := by
        rw [prepMsg_id_truthy c m1 ht1, prepMsg_id_truthy c m2 ht2]; exact hne
      simp [h1, h2]
    have hcore2 := appendCore_dup_sig c (g.history ++ [prepMsg c m1]) (prepMsg c m2) sg hok1
      htp2 hidp2 hs2 (prepMsg c m1) (by simp) hs1
    have hA2 := addGroupMessage_existing c gid m2 (addGroupMessage c gid m1 s)
        { g with history := g.history ++ [prepMsg c m1] } hm1 hk2
    simp only at hA2
    rw [hcore2] at hA2
    constructor
    · rw [hA2, hA1]
      simp [mset_mset]
    · refine ⟨g.history ++ [prepMsg c m1], hm1, ?_⟩
      have hfree : g.history.all (fun x => !(msgSig x == some sg)) = true := by
        unfold sigFreeB at hsig1
        rw [hs1] at hsig1
        exact hsig1
      exact countP_append_one g.history _ (prepMsg c m1) hfree (by simp [hs1])

def msgB2 : Message :=
  { id := some "m3", senderId := some "alice", messageContent := some "yo",
    timestamp := some 6 }

theorem C3_witness :
    (addPrivateMessage ctx1 "alice" "bob" msgB (addPrivateMessage ctx1 "alice" "bob" msgB sC4)
        = addPrivateMessage ctx1 "alice" "bob" msgB sC4 ∧
     ∃ hist, mget (addPrivateMessage ctx1 "alice" "bob" msgB sC4).privateChats
           (getPrivateChatKey "alice" "bob") = some ⟨["alice", "bob"], hist⟩ ∧
         hist.countP (fun x => x.id == msgB.id) = 1) ∧
    (addPrivateMessage ctx1 "alice" "bob" msgB2 (addPrivateMessage ctx1 "alice" "bob" msgB sC4)
        = addPrivateMessage ctx1 "alice" "bob" msgB sC4 ∧
     ∃ hist, mget (addPrivateMessage ctx1 "alice" "bob" msgB sC4).privateChats
           (getPrivateChatKey "alice" "bob") = some ⟨["alice", "bob"], hist⟩ ∧
         hist.countP (fun x => msgSig x == some "alice|6|yo") = 1) :=
  ⟨(C3_idempotent_append ctx1).1 "alice" "bob" msgB sC4 ["alice", "bob"] [msgA]
      (by decide) (by decide) (by decide) (by decide) (by decide) (by decide),
   (C3_idempotent_append ctx1).2.1 "alice" "bob" msgB msgB2 sC4 ["alice", "bob"] [msgA]
      "alice|6|yo" (by decide) (by decide) (by decide) (by decide) (by decide) (by decide)
      (by decide) (by decide) (by decide) (by decide) (by decide) (by decide)⟩

theorem find?_append_of_none {α : Type} (l1 l2 : List α) (p : α → Bool)
    (h : l1.find? p = none) : (l1 ++ l2).find? p = l2.find? p := by
  induction l1 with
  | nil => rfl
  | cons x xs ih =>
    cases hp : p x
    · rw [List.find?_cons_of_neg _ (by simp [hp])] at h
      rw [List.cons_append, List.find?_cons_of_neg _ (by simp [hp])]
      exact ih h
    · rw [List.find?_cons_of_pos _ (by simp [hp])] at h
      cases h

/-- C1: sending a private message between two non-GMs emits the direct
copy to the recipient plus exactly one relay copy addressed only to the
first active GM; a GM sender or a GM recipient produces only the direct
copy; and a GM that receives the relay copy appends the message both to
its interception log and to its own copy of the two parties private
conversation. -/
theorem C1_stealth_relay (c : Ctx) :
    (∀ (roster : List User) (sid rid : String) (m : Message) (u gm : User),
      roster.find? (fun x => x.id == rid) = some u → u.isGM = false →
      roster.find? (fun x => x.isGM && x.active) = some gm →
      sendPrivateMessage roster sid false rid m =
        [{ eventType := "privateMessage",
           payload := { recipientId := rid, message := m }, recipients := [rid] },
         { eventType := "privateMessage",
           payload := { recipientId := gm.id, message := m, isRelay := some true,
                        originalSenderId := some sid, originalRecipientId := some rid },
           recipients := [gm.id] }]) ∧
    (∀ (roster : List User) (sid rid : String) (m : Message),
      sendPrivateMessage roster sid true rid m =
        [{ eventType := "privateMessage",
           payload := { recipientId := rid, message := m }, recipients := [rid] }]) ∧
    (∀ (roster : List User) (sid rid : String) (m : Message) (u : User),
      roster.find? (fun x => x.id == rid) = some u → u.isGM = true →
      sendPrivateMessage roster sid false rid m =
        [{ eventType := "privateMessage",
           payload := { recipientId := rid, message := m }, recipients := [rid] }]) ∧
    (∀ (a b gmid : String) (m : Message) (sG : DM) (us : List String) (h : List Message),
      a ≠ gmid → m.senderId = some a →
      mget sG.privateChats (getPrivateChatKey a b) = some ⟨us, h⟩ →
      m.hasKeys = true → jsTruthyS m.id = true →
      okChainB [] [] h = true →
      h.all (fun x => !(x.id == m.id)) = true →
      sigFreeB (prepMsg c m) h = true →
      handlePrivateMessage c
          { recipientId := gmid, message := m, isRelay := some true,
            originalSenderId := some a, originalRecipientId := some b } gmid true sG =
        { sG with
          interceptedMessages := sG.interceptedMessages ++
            [{ senderId := some a, recipientId := some b, messageData := m,
               id := some c.freshLogId, interceptedAt := some c.now }],
          privateChats := mset sG.privateChats (getPrivateChatKey a b)
            ⟨us, h ++ [prepMsg c m]⟩,
          lastActivity := mset sG.lastActivity (getPrivateChatKey a b) c.now }) := by
  refine ⟨?_, ?_, ?_, ?_⟩
  · intro roster sid rid m u gm hu hugm hgm
    simp [sendPrivateMessage, hu, hugm, hgm]
  · intro roster sid rid m
    simp [sendPrivateMessage]
  · intro roster sid rid m u hu hugm
    simp [sendPrivateMessage, hu, hugm]
  · intro a b gmid m sG us h hag hsen hm hkeys ht hok hid hsig
    have hsendb : (m.senderId == some gmid) = false := by
      rw [hsen]
      simp [hag]
    have hstep : handlePrivateMessage c
        { recipientId := gmid, message := m, isRelay := some true,
          originalSenderId := some a, originalRecipientId := some b } gmid true sG =
        addPrivateMessage c a b m
          (addInterceptedMessage c
            { senderId := some a, recipientId := some b, messageData := m } sG) := by
      simp [handlePrivateMessage, hsendb, jsTruthyB, jsStr]
    rw [hstep, addInterceptedMessage_eq]
    have htp : jsTruthyS (prepMsg c m).id = true := by
      rw [prepMsg_id_truthy c m ht]; exact ht
    have hidp : h.all (fun x => !(x.id == (prepMsg c m).id)) = true := by
      rw [prepMsg_id_truthy c m ht]; exact hid
    have hcore := appendCore_fresh c h (prepMsg c m) hok htp hidp hsig
    have hm' : mget ({ sG with interceptedMessages := sG.interceptedMessages ++
        [{ senderId := some a, recipientId := some b, messageData := m,
           id := some c.freshLogId, interceptedAt := some c.now }] } : DM).privateChats
        (getPrivateChatKey a b) = some ⟨us, h⟩ := hm
    have hA := addPrivateMessage_existing c a b m _ us h hm' hkeys
    rw [hcore] at hA
    rw [hA]

def rosterC1 : List User :=
  [{ id := "a", name := "A", isGM := false, active := true },
   { id := "b", name := "B", isGM := false, active := true },
   { id := "g", name := "G", isGM := true, active := true }]

def sG1 : DM := { privateChats := [("a-b", { users := ["a", "b"], history := [] })] }

def msgC1 : Message :=
  { id := some "m7", senderId := some "a", messageContent := some "psst",
    timestamp := some 9 }

def recC1 : IRec :=
  { senderId := some "a", recipientId := some "b", messageData := msgC1,
    id := some "L", interceptedAt := some 1 }

def chatC1 : Chat := { users := ["a", "b"], history := [] ++ [prepMsg ctx1 msgC1] }

def rosterABG (a b g : String) : List User :=
  [{ id := a, name := "A", isGM := false, active := true },
   { id := b, name := "B", isGM := false, active := true },
   { id := g, name := "G", isGM := true, active := true }]

def rosterAB (a b : String) : List User :=
  [{ id := a, name := "A", isGM := false, active := true },
   { id := b, name := "B", isGM := false, active := true }]

theorem C1_witness :
    sendPrivateMessage rosterC1 "a" false "b" msgC1 =
      [{ eventType := "privateMessage",
         payload := { recipientId := "b", message := msgC1 }, recipients := ["b"] },
       { eventType := "privateMessage",
         payload := { recipientId := "g", message := msgC1, isRelay := some true,
                      originalSenderId := some "a", originalRecipientId := some "b" },
         recipients := ["g"] }] ∧
    handlePrivateMessage ctx1
        { recipientId := "g", message := msgC1, isRelay := some true,
          originalSenderId := some "a", originalRecipientId := some "b" } "g" true sG1 =
      { sG1 with
        interceptedMessages := [recC1],
        privateChats := mset sG1.privateChats (getPrivateChatKey "a" "b") chatC1,
        lastActivity := mset sG1.lastActivity (getPrivateChatKey "a" "b") 1 } :=
  ⟨(C1_stealth_relay ctx1).1 rosterC1 "a" "b" msgC1
      { id := "b", name := "B", isGM := false, active := true }
      { id := "g", name := "G", isGM := true, active := true }
      (by decide) (by decide) (by decide),
   (C1_stealth_relay ctx1).2.2.2 "a" "b" "g" msgC1 sG1 ["a", "b"] []
      (by decide) (by decide) (by decide) (by decide) (by decide) (by decide)
      (by decide) (by decide)⟩

/-- C2: for non-GM users a and b and active GM g, the state b reaches
after delivery of everything emitted by a send from a to b is identical
with and without g on the roster (the relay is invisible to b), while g
gains exactly one interception record referencing the a-to-b message. -/
theorem C2_relay_invisible_to_recipient (c : Ctx) (a b g : String) (m : Message)
    (sB sG : DM) (hab : a ≠ b) (hbg : b ≠ g) (hag : a ≠ g) (hsen : m.senderId = some a) :
    deliverTo c b false (sendPrivateMessage (rosterABG a b g) a false b m) sB =
      deliverTo c b false (sendPrivateMessage (rosterAB a b) a false b m) sB ∧
    (deliverTo c g true (sendPrivateMessage (rosterABG a b g) a false b m) sG).interceptedMessages =
      sG.interceptedMessages ++
        [{ senderId := some a, recipientId := some b, messageData := m,
           id := some c.freshLogId, interceptedAt := some c.now }] := by
  have habq : (a == b) = false := beq_eq_false_iff_ne.mpr hab
  have hfr3 : (rosterABG a b g).find? (fun x => x.id == b) =
      some { id := b, name := "B", isGM := false, active := true } := by
    simp [rosterABG, List.find?, habq]
  have hfgm3 : (rosterABG a b g).find? (fun x => x.isGM && x.active) =
      some { id := g, name := "G", isGM := true, active := true } := by
    simp [rosterABG, List.find?]
  have hsendG : sendPrivateMessage (rosterABG a b g) a false b m =
      [{ eventType := "privateMessage",
         payload := { recipientId := b, message := m }, recipients := [b] },
       { eventType := "privateMessage",
         payload := { recipientId := g, message := m, isRelay := some true,
                      originalSenderId := some a, originalRecipientId := some b },
         recipients := [g] }] := by
    simp [sendPrivateMessage, hfr3, hfgm3]
  have hfr2 : (rosterAB a b).find? (fun x => x.id == b) =
      some { id := b, name := "B", isGM := false, active := true } := by
    simp [rosterAB, List.find?, habq]
  have hfgm2 : (rosterAB a b).find? (fun x => x.isGM && x.active) = none := by
    simp [rosterAB, List.find?]
  have hsendN : sendPrivateMessage (rosterAB a b) a false b m =
      [{ eventType := "privateMessage",
         payload := { recipientId := b, message := m }, recipients := [b] }] := by
    simp [sendPrivateMessage, hfr2, hfgm2]
  constructor
  · rw [hsendG, hsendN]
    simp [deliverTo, onSocketMessage, hbg]
  · rw [hsendG]
    have hgb : g ≠ b := Ne.symm hbg
    have hsendb : (m.senderId == some g) = false := by
      rw [hsen]
      simp [hag]
    have hsenne : ¬(m.senderId = some g) := by
      rw [hsen]
      simp [hag]
    simp [deliverTo, onSocketMessage, hgb, handlePrivateMessage, hsendb, hsenne, jsTruthyB,
      addPrivateMessage_interceptedMessages, addInterceptedMessage_eq]

theorem C2_witness :
    deliverTo ctx1 "b" false (sendPrivateMessage (rosterABG "a" "b" "g") "a" false "b" msgC1) sG1 =
      deliverTo ctx1 "b" false (sendPrivateMessage (rosterAB "a" "b") "a" false "b" msgC1) sG1 ∧
    (deliverTo ctx1 "g" true
        (sendPrivateMessage (rosterABG "a" "b" "g") "a" false "b" msgC1) ({} : DM)).interceptedMessages =
      ({} : DM).interceptedMessages ++ [recC1] :=
  C2_relay_invisible_to_recipient ctx1 "a" "b" "g" msgC1 sG1 ({} : DM)
    (by decide) (by decide) (by decide) (by decide)

/-- C10: when several GMs are active the relay copy goes to exactly one of
them, the first active GM in roster order, and no other user is among the
relay recipients; when no GM is active, only the direct copy is emitted. -/
theorem C10_first_active_gm (sid rid : String) (m : Message) (u gm : User)
    (pre post : List User) :
    (((pre ++ gm :: post).find? (fun x => x.id == rid) = some u) → u.isGM = false →
      (∀ x ∈ pre, ¬(x.isGM = true ∧ x.active = true)) →
      gm.isGM = true → gm.active = true →
      sendPrivateMessage (pre ++ gm :: post) sid false rid m =
        [{ eventType := "privateMessage",
           payload := { recipientId := rid, message := m }, recipients := [rid] },
         { eventType := "privateMessage",
           payload := { recipientId := gm.id, message := m, isRelay := some true,
                        originalSenderId := some sid, originalRecipientId := some rid },
           recipients := [gm.id] }] ∧
      (∀ uid : String, uid ≠ gm.id →
        uid ∉ ({ eventType := "privateMessage",
                 payload := { recipientId := gm.id, message := m, isRelay := some true,
                              originalSenderId := some sid, originalRecipientId := some rid },
                 recipients := [gm.id] } : Emission).recipients)) ∧
    (∀ roster : List User, roster.find? (fun x => x.id == rid) = some u → u.isGM = false →
      (∀ x ∈ roster, ¬(x.isGM = true ∧ x.active = true)) →
      sendPrivateMessage roster sid false rid m =
        [{ eventType := "privateMessage",
           payload := { recipientId := rid, message := m }, recipients := [rid] }]) := by
  constructor
  · intro hu hugm hpre hgm1 hgm2
    have hprenone : pre.find? (fun x => x.isGM && x.active) = none := by
      rw [List.find?_eq_none]
      intro x hx
      simp only [Bool.and_eq_true]
      intro hcon
      exact hpre x hx ⟨hcon.1, hcon.2⟩
    have hfind : (pre ++ gm :: post).find? (fun x => x.isGM && x.active) = some gm := by
      rw [find?_append_of_none pre (gm :: post) _ hprenone]
      exact List.find?_cons_of_pos _ (by simp [hgm1, hgm2])
    constructor
    · simp [sendPrivateMessage, hu, hugm, hfind]
    · intro uid huid
      simp [huid]
  · intro roster hu hugm hnogm
    have hnone : roster.find? (fun x => x.isGM && x.active) = none := by
      rw [List.find?_eq_none]
      intro x hx
      simp only [Bool.and_eq_true]
      intro hcon
      exact hnogm x hx ⟨hcon.1, hcon.2⟩
    simp [sendPrivateMessage, hu, hugm, hnone]

theorem C10_witness :
    sendPrivateMessage rosterC1 "a" false "b" msgC1 =
      [{ eventType := "privateMessage",
         payload := { recipientId := "b", message := msgC1 }, recipients := ["b"] },
       { eventType := "privateMessage",
         payload := { recipientId := "g", message := msgC1, isRelay := some true,
                      originalSenderId := some "a", originalRecipientId := some "b" },
         recipients := ["g"] }] ∧
    sendPrivateMessage
        [{ id := "a", name := "A", isGM := false, active := true },
         { id := "b", name := "B", isGM := false, active := true }] "a" false "b" msgC1 =
      [{ eventType := "privateMessage",
         payload := { recipientId := "b", message := msgC1 }, recipients := ["b"] }] :=
  ⟨((C10_first_active_gm "a" "b" msgC1
        { id := "b", name := "B", isGM := false, active := true }
        { id := "g", name := "G", isGM := true, active := true }
        [{ id := "a", name := "A", isGM := false, active := true },
         { id := "b", name := "B", isGM := false, active := true }] []).1
      (by decide) (by decide) (by decide) (by decide) (by decide)).1,
   (C10_first_active_gm "a" "b" msgC1
        { id := "b", name := "B", isGM := false, active := true }
        { id := "g", name := "G", isGM := true, active := true }
        [] []).2
      [{ id := "a", name := "A", isGM := false, active := true },
       { id := "b", name := "B", isGM := false, active := true }]
      (by decide) (by decide) (by decide)⟩

end Cyphur
